import Mathlib

/-!
Shallow embedding of the orders CRUD service (controllers for create, list,
update, delete over a single `orders` table) and proofs about its
validation, filtering, pagination, ordering and mutation behaviour.

Modelling conventions:
* A JSON request body field is `Option α`: `none` is an absent field
  (JS `undefined`), `some v` a supplied value.  JS truthiness is modelled
  for strings (`""` is falsy) and numbers (`0` is falsy).
* Numeric JSON values are rationals (`ℚ`).
* The SQLite table is a list of rows plus the next AUTOINCREMENT id.
* SQLite TEXT comparison (used for `order_date` ranges and ORDER BY) is
  lexicographic comparison of character code points.
* `parseInt` / `parseFloat` are modelled on sign-plus-digits strings;
  a string with no leading numeric part parses to `none` (JS `NaN`).
-/

namespace OrdersApi

/-- JS truthiness of an optional string field: absent and `""` are falsy. -/
def truthyStr : Option String → Bool
  | none => false
  | some s => s ≠ ""

/-- JS truthiness of an optional numeric field: absent and `0` are falsy. -/
def truthyNum : Option ℚ → Bool
  | none => false
  | some q => q ≠ 0

/-- Numeric value of a decimal digit character. -/
def digitVal (c : Char) : Nat := c.toNat - 48

/-- Value of a list of decimal digit characters, most significant first. -/
def natOfDigits (ds : List Char) : Nat := ds.foldl (fun a c => a * 10 + digitVal c) 0

/-- JS `parseInt`: optional sign, then the maximal run of leading digits;
`none` when there is no leading digit (JS `NaN`). -/
def jsParseInt (s : String) : Option Int :=
  let core : Int → List Char → Option Int := fun sign cs =>
    let ds := cs.takeWhile Char.isDigit
    if ds.isEmpty then none else some (sign * (natOfDigits ds : Int))
  match s.data with
  | '-' :: cs => core (-1) cs
  | '+' :: cs => core 1 cs
  | cs => core 1 cs

/-- JS `parseFloat`: optional sign, digits, optional `.` and more digits;
`none` when no digit is found (JS `NaN`).  Exponent notation is out of
scope of the requests modelled here. -/
def jsParseFloat (s : String) : Option ℚ :=
  let core : List Char → Option ℚ := fun cs =>
    let intDs := cs.takeWhile Char.isDigit
    let rest := cs.dropWhile Char.isDigit
    let fracDs : List Char :=
      match rest with
      | '.' :: t => t.takeWhile Char.isDigit
      | _ => []
    if intDs.isEmpty && fracDs.isEmpty then none
    else some (mkRat (natOfDigits (intDs ++ fracDs)) (10 ^ fracDs.length))
  match s.data with
  | '-' :: cs => (core cs).map (fun q => -q)
  | '+' :: cs => core cs
  | cs => core cs

/-- `parseInt(x) || d`: the parsed value, except that a missing parameter,
an unparseable one (`NaN`) or a parse result of `0` (falsy) all yield the
default `d`. -/
def jsIntOr (s : Option String) (d : Int) : Int :=
  match s with
  | none => d
  | some str =>
    match jsParseInt str with
    | none => d
    | some n => if n = 0 then d else n

/-- A row of the `orders` table. -/
structure Order where
  id : Nat
  customer_name : String
  product : String
  quantity : ℚ
  amount : ℚ
  status : String
  order_date : String
deriving DecidableEq

/-- The SQLite store: current rows plus the next AUTOINCREMENT id. -/
structure DB where
  rows : List Order
  nextId : Nat
deriving DecidableEq

/-- The enumerated set of valid statuses. -/
def validStatuses : List String := ["pending", "processing", "completed", "cancelled"]

/-- The storage-level CHECK constraint on `status` from the
`CREATE TABLE` statement in `initializeDatabase`. -/
def statusCheck (o : Order) : Bool := validStatuses.contains o.status

/-- `INSERT INTO orders ...`: appends the row and bumps the id counter,
or fails (surfaced as a database error) when the CHECK constraint on
`status` is violated. -/
def dbInsert (db : DB) (o : Order) : Option DB :=
  if statusCheck o then some { rows := db.rows ++ [o], nextId := db.nextId + 1 }
  else none

/-- The body of a POST /orders request. -/
structure CreateBody where
  customer_name : Option String
  product : Option String
  quantity : Option ℚ
  amount : Option ℚ
  status : Option String
  order_date : Option String
deriving DecidableEq

/-- The constant `required` list in the missing-fields error body. -/
def requiredFields : List String :=
  ["customer_name", "product", "quantity", "amount", "status", "order_date"]

/-- Result of `createOrder` (HTTP status in parentheses). -/
inductive CreateRes where
  /-- 400, body carries the `required` list. -/
  | missingFields (required : List String)
  /-- 400 -/
  | invalidStatus
  /-- 400, quantity and amount must be positive. -/
  | invalidMagnitude
  /-- 500 -/
  | dbError
  /-- 201 -/
  | created (o : Order)
deriving DecidableEq

/-- `createOrder` from the controllers file: required-field check, status
check, magnitude check, then the INSERT. -/
def createOrder (db : DB) (b : CreateBody) : CreateRes × DB :=
  if !(truthyStr b.customer_name && truthyStr b.product && truthyNum b.quantity &&
       truthyNum b.amount && truthyStr b.status && truthyStr b.order_date) then
    (.missingFields requiredFields, db)
  else if !(validStatuses.contains (b.status.getD "")) then
    (.invalidStatus, db)
  else if b.quantity.getD 0 ≤ 0 ∨ b.amount.getD 0 ≤ 0 then
    (.invalidMagnitude, db)
  else
    let o : Order :=
      { id := db.nextId
        customer_name := b.customer_name.getD ""
        product := b.product.getD ""
        quantity := b.quantity.getD 0
        amount := b.amount.getD 0
        status := b.status.getD ""
        order_date := b.order_date.getD "" }
    match dbInsert db o with
    | none => (.dbError, db)
    | some db2 => (.created o, db2)

/-- Three-way lexicographic comparison of character lists by code point,
the SQLite TEXT collation used for `order_date` comparisons. -/
def lexCmp : List Char → List Char → Ordering
  | [], [] => .eq
  | [], _ :: _ => .lt
  | _ :: _, [] => .gt
  | a :: as, b :: bs =>
    if a.toNat < b.toNat then .lt
    else if b.toNat < a.toNat then .gt
    else lexCmp as bs

/-- TEXT less-or-equal. -/
def strLe (a b : String) : Bool := !(lexCmp a.data b.data == .gt)

/-- The GET /orders query string. -/
structure ListQuery where
  page : Option String
  limit : Option String
  status : Option String
  minAmount : Option String
  maxAmount : Option String
  startDate : Option String
  endDate : Option String
deriving DecidableEq

/-- The filter-validation failures of `getOrders`, in source order. -/
inductive FilterErr where
  | invalidStatusFilter
  | invalidMinAmount
  | invalidMaxAmount
deriving DecidableEq

/-- An amount filter parameter is rejected when it does not parse
(`NaN`) or parses negative. -/
def badAmount (s : Option String) : Bool :=
  match jsParseFloat (s.getD "") with
  | none => true
  | some v => decide (v < 0)

/-- The first filter-validation error `getOrders` hits, if any; the
checks run in source order (status, minAmount, maxAmount; the date
filters are never validated). -/
def filterError (q : ListQuery) : Option FilterErr :=
  if truthyStr q.status && !(validStatuses.contains (q.status.getD "")) then
    some .invalidStatusFilter
  else if truthyStr q.minAmount && badAmount q.minAmount then
    some .invalidMinAmount
  else if truthyStr q.maxAmount && badAmount q.maxAmount then
    some .invalidMaxAmount
  else none

/-- The WHERE-clause conjunct list of `getOrders`: one entry per
`filters.push`, in source order.  Sound to read only when
`filterError q = none`, in which case every present amount filter
parsed successfully. -/
def conjuncts (q : ListQuery) : List (Order → Bool) :=
  (if truthyStr q.status then
    [fun o => o.status == q.status.getD ""] else [])
  ++ (if truthyStr q.minAmount then
    [fun o => decide ((jsParseFloat (q.minAmount.getD "")).getD 0 ≤ o.amount)] else [])
  ++ (if truthyStr q.maxAmount then
    [fun o => decide (o.amount ≤ (jsParseFloat (q.maxAmount.getD "")).getD 0)] else [])
  ++ (if truthyStr q.startDate then
    [fun o => strLe (q.startDate.getD "") o.order_date] else [])
  ++ (if truthyStr q.endDate then
    [fun o => strLe o.order_date (q.endDate.getD "")] else [])

/-- A row satisfies the assembled WHERE clause (`filters.join(' AND ')`). -/
def rowMatches (q : ListQuery) (o : Order) : Bool :=
  (conjuncts q).all (fun c => c o)

/-- `ORDER BY order_date DESC, id DESC`: either the first row's date is
strictly greater in the TEXT collation, or the dates are equal and the
first row's id is at least the second's. -/
def listOrd (a b : Order) : Prop :=
  lexCmp b.order_date.data a.order_date.data = .lt ∨
    (a.order_date = b.order_date ∧ b.id ≤ a.id)

instance : DecidableRel listOrd := fun a b => by unfold listOrd; infer_instance

/-- `Math.ceil` of the division of two natural numbers. -/
def ceilDiv (a b : Nat) : Nat := (a + b - 1) / b

/-- The pagination metadata object of the listing response. -/
structure Pagination where
  page : Int
  limit : Int
  totalOrders : Nat
  totalPages : Nat
  hasNextPage : Bool
  hasPreviousPage : Bool
deriving DecidableEq

/-- Result of `getOrders` (HTTP status in parentheses). -/
inductive ListRes where
  /-- 400 -/
  | invalidPagination
  /-- 400 -/
  | invalidStatusFilter
  /-- 400, names the offending parameter. -/
  | invalidAmountFilter (which : String)
  /-- 200 -/
  | ok (data : List Order) (pagination : Pagination)
deriving DecidableEq

/-- All rows matching the WHERE clause, in `ORDER BY` order (the data
query without its LIMIT/OFFSET). -/
def sortedMatched (db : DB) (q : ListQuery) : List Order :=
  List.insertionSort listOrd (db.rows.filter (fun o => rowMatches q o))

/-- `getOrders` from the controllers file: pagination parsing with
falsy-defaulting, pagination validation, filter construction, count
query, then the paged data query. -/
def getOrders (db : DB) (q : ListQuery) : ListRes :=
  let page := jsIntOr q.page 1
  let limit := jsIntOr q.limit 10
  let offset := (page - 1) * limit
  if page < 1 ∨ limit < 1 ∨ limit > 100 then .invalidPagination
  else
    match filterError q with
    | some .invalidStatusFilter => .invalidStatusFilter
    | some .invalidMinAmount => .invalidAmountFilter "minAmount"
    | some .invalidMaxAmount => .invalidAmountFilter "maxAmount"
    | none =>
      let totalOrders := (db.rows.filter (fun o => rowMatches q o)).length
      let totalPages := ceilDiv totalOrders limit.toNat
      let data := ((sortedMatched db q).drop offset.toNat).take limit.toNat
      .ok data
        { page := page
          limit := limit
          totalOrders := totalOrders
          totalPages := totalPages
          hasNextPage := decide (page < (totalPages : Int))
          hasPreviousPage := decide (1 < page) }

/-- The body of a PUT /orders/:id request. -/
structure UpdateBody where
  customer_name : Option String
  product : Option String
  quantity : Option ℚ
  amount : Option ℚ
  status : Option String
  order_date : Option String
deriving DecidableEq

/-- Result of `updateOrder` (HTTP status in parentheses). -/
inductive UpdateRes where
  /-- 400 -/
  | invalidStatus
  /-- 400 -/
  | invalidMagnitude
  /-- 400 -/
  | noFieldsToUpdate
  /-- 404 -/
  | notFound
  /-- 200 -/
  | ok (id : Int)
deriving DecidableEq

/-- The SET-clause updater list of `updateOrder`: one entry per
`updates.push`, guarded by the truthiness of each supplied field. -/
def buildUpdates (b : UpdateBody) : List (Order → Order) :=
  (if truthyStr b.customer_name then
    [fun o => { o with customer_name := b.customer_name.getD "" }] else [])
  ++ (if truthyStr b.product then
    [fun o => { o with product := b.product.getD "" }] else [])
  ++ (if truthyNum b.quantity then
    [fun o => { o with quantity := b.quantity.getD 0 }] else [])
  ++ (if truthyNum b.amount then
    [fun o => { o with amount := b.amount.getD 0 }] else [])
  ++ (if truthyStr b.status then
    [fun o => { o with status := b.status.getD "" }] else [])
  ++ (if truthyStr b.order_date then
    [fun o => { o with order_date := b.order_date.getD "" }] else [])

/-- The number of rows a `WHERE id = ?` statement touches (the driver's
`this.changes` for UPDATE and DELETE). -/
def matchCount (db : DB) (id : Int) : Nat :=
  (db.rows.filter (fun o => (o.id : Int) == id)).length

/-- `updateOrder` from the controllers file: status check, magnitude
check on supplied values, dynamic SET-clause assembly, no-fields check,
then the UPDATE with its affected-row count. -/
def updateOrder (db : DB) (id : Int) (b : UpdateBody) : UpdateRes × DB :=
  if truthyStr b.status && !(validStatuses.contains (b.status.getD "")) then
    (.invalidStatus, db)
  else if (b.quantity.isSome && decide (b.quantity.getD 0 ≤ 0))
       || (b.amount.isSome && decide (b.amount.getD 0 ≤ 0)) then
    (.invalidMagnitude, db)
  else
    let updates := buildUpdates b
    if updates.length = 0 then (.noFieldsToUpdate, db)
    else if matchCount db id = 0 then (.notFound, db)
    else
      (.ok id,
        { db with rows := db.rows.map (fun o =>
            if (o.id : Int) == id then updates.foldl (fun acc u => u acc) o else o) })

/-- Result of `deleteOrder` (HTTP status in parentheses). -/
inductive DeleteRes where
  /-- 404 -/
  | notFound
  /-- 200 -/
  | ok (id : Int)
deriving DecidableEq

/-- `deleteOrder` from the controllers file: the DELETE statement with
its affected-row count. -/
def deleteOrder (db : DB) (id : Int) : DeleteRes × DB :=
  if matchCount db id = 0 then (.notFound, db)
  else (.ok id, { db with rows := db.rows.filter (fun o => !((o.id : Int) == id)) })

/-!
Spec-side definitions.  These follow the specification's words, not the
source, and exist only to be compared with the source-derived
definitions above.
-/

/-- Spec-side: the required create fields that are absent/falsy in a
request, in declaration order ("naming every absent field"). -/
def specAbsentFields (b : CreateBody) : List String :=
  (if truthyStr b.customer_name then [] else ["customer_name"])
  ++ (if truthyStr b.product then [] else ["product"])
  ++ (if truthyNum b.quantity then [] else ["quantity"])
  ++ (if truthyNum b.amount then [] else ["amount"])
  ++ (if truthyStr b.status then [] else ["status"])
  ++ (if truthyStr b.order_date then [] else ["order_date"])

/-- Spec-side: a stored order satisfies the conjunction of the active
filters — `status = value`, `amount >= minAmount`, `amount <= maxAmount`,
`order_date >= startDate`, `order_date <= endDate`; absent filters
constrain nothing. -/
def specRowMatches (q : ListQuery) (o : Order) : Bool :=
  (!truthyStr q.status || (o.status == q.status.getD ""))
  && (!truthyStr q.minAmount ||
      (match jsParseFloat (q.minAmount.getD "") with
       | none => true
       | some v => decide (v ≤ o.amount)))
  && (!truthyStr q.maxAmount ||
      (match jsParseFloat (q.maxAmount.getD "") with
       | none => true
       | some v => decide (o.amount ≤ v)))
  && (!truthyStr q.startDate || strLe (q.startDate.getD "") o.order_date)
  && (!truthyStr q.endDate || strLe o.order_date (q.endDate.getD ""))

/-- Spec-side: the number of present filter parameters, each of which is
supposed to contribute exactly one conjunct. -/
def presentFilterCount (q : ListQuery) : Nat :=
  (if truthyStr q.status then 1 else 0)
  + (if truthyStr q.minAmount then 1 else 0)
  + (if truthyStr q.maxAmount then 1 else 0)
  + (if truthyStr q.startDate then 1 else 0)
  + (if truthyStr q.endDate then 1 else 0)

/-- Spec-side: `order_date` has the calendar-date shape `YYYY-MM-DD` —
four digits, a dash, two digits, a dash, two digits. -/
def specDateFormat (s : String) : Bool :=
  match s.data with
  | [y1, y2, y3, y4, h1, m1, m2, h2, d1, d2] =>
    y1.isDigit && y2.isDigit && y3.isDigit && y4.isDigit &&
    (h1 == '-') && m1.isDigit && m2.isDigit &&
    (h2 == '-') && d1.isDigit && d2.isDigit
  | _ => false

/-!
Helper lemmas about the embedding.
-/

theorem lexCmp_refl (as : List Char) : lexCmp as as = .eq := by
  induction as with
  | nil => rfl
  | cons a t ih => simp [lexCmp, ih]

theorem lexCmp_eq_iff : ∀ {as bs : List Char}, lexCmp as bs = .eq ↔ as = bs
  | [], [] => by simp [lexCmp]
  | [], _ :: _ => by simp [lexCmp]
  | _ :: _, [] => by simp [lexCmp]
  | a :: as, b :: bs => by
    unfold lexCmp
    split
    · next hlt =>
      constructor
      · intro h; exact absurd h (by simp)
      · rintro ⟨rfl, rfl⟩; omega
    · split
      · next hgt =>
        constructor
        · intro h; exact absurd h (by simp)
        · rintro ⟨rfl, rfl⟩; omega
      · next hlt hgt =>
        have hn : a.toNat = b.toNat := by omega
        have hab : a = b := Char.eq_of_val_eq (UInt32.ext hn)
        subst hab
        rw [lexCmp_eq_iff]
        simp

theorem lexCmp_lt_iff_gt : ∀ {as bs : List Char},
    lexCmp as bs = .lt ↔ lexCmp bs as = .gt
  | [], [] => by simp [lexCmp]
  | [], _ :: _ => by simp [lexCmp]
  | _ :: _, [] => by simp [lexCmp]
  | a :: as, b :: bs => by
    unfold lexCmp
    rcases Nat.lt_trichotomy a.toNat b.toNat with h | h | h
    · rw [if_pos h, if_neg (by omega), if_pos h]; simp
    · rw [if_neg (by omega), if_neg (by omega), if_neg (by omega), if_neg (by omega)]
      exact lexCmp_lt_iff_gt
    · rw [if_neg (by omega), if_pos h, if_pos h]; simp

theorem lexCmp_lt_trans : ∀ {as bs cs : List Char},
    lexCmp as bs = .lt → lexCmp bs cs = .lt → lexCmp as cs = .lt
  | [], [], _ => by intro h _; exact absurd h (by simp [lexCmp])
  | _ :: _, [], _ => by intro h _; exact absurd h (by simp [lexCmp])
  | [], _ :: _, [] => by intro _ h; exact absurd h (by simp [lexCmp])
  | [], _ :: _, _ :: _ => by intro _ _; simp [lexCmp]
  | _ :: _, _ :: _, [] => by intro _ h; exact absurd h (by simp [lexCmp])
  | a :: as, b :: bs, c :: cs => by
    intro h1 h2
    unfold lexCmp at h1 h2 ⊢
    rcases Nat.lt_trichotomy a.toNat b.toNat with hab | hab | hab <;>
      rcases Nat.lt_trichotomy b.toNat c.toNat with hbc | hbc | hbc
    all_goals first
      | (rw [if_pos (by omega)])
      | (rw [if_neg (by omega), if_neg (by omega)]
         rw [if_neg (by omega), if_neg (by omega)] at h1
         rw [if_neg (by omega), if_neg (by omega)] at h2
         exact lexCmp_lt_trans h1 h2)
      | (exfalso
         rw [if_neg (by omega)] at h2
         rw [if_pos (by omega)] at h2
         exact Ordering.noConfusion h2)
      | (exfalso
         rw [if_neg (by omega)] at h1
         rw [if_pos (by omega)] at h1
         exact Ordering.noConfusion h1)

theorem string_eq_of_data_eq {a b : String} (h : a.data = b.data) : a = b := by
  cases a
  cases b
  exact congrArg String.mk h

instance : IsTotal Order listOrd := by
  constructor
  intro a b
  rcases h : lexCmp a.order_date.data b.order_date.data with h | h | h
  · right
    left
    exact h
  · rcases Nat.le_total b.id a.id with hid | hid
    · left
      right
      exact ⟨string_eq_of_data_eq (lexCmp_eq_iff.mp h), hid⟩
    · right
      right
      exact ⟨(string_eq_of_data_eq (lexCmp_eq_iff.mp h)).symm, hid⟩
  · left
    left
    exact lexCmp_lt_iff_gt.mpr h

instance : IsTrans Order listOrd := by
  constructor
  intro a b c hab hbc
  rcases hab with hab | ⟨hab, hab2⟩ <;> rcases hbc with hbc | ⟨hbc, hbc2⟩
  · left
    exact lexCmp_lt_trans hbc hab
  · left
    rw [← hbc]
    exact hab
  · left
    rw [hab]
    exact hbc
  · right
    exact ⟨hab.trans hbc, le_trans hbc2 hab2⟩

theorem conjuncts_length (q : ListQuery) :
    (conjuncts q).length = presentFilterCount q := by
  unfold conjuncts presentFilterCount
  cases truthyStr q.status <;> cases truthyStr q.minAmount <;>
    cases truthyStr q.maxAmount <;> cases truthyStr q.startDate <;>
    cases truthyStr q.endDate <;> simp

theorem filterError_none_inv {q : ListQuery} (h : filterError q = none) :
    (truthyStr q.status = true → validStatuses.contains (q.status.getD "") = true)
    ∧ (truthyStr q.minAmount = true → badAmount q.minAmount = false)
    ∧ (truthyStr q.maxAmount = true → badAmount q.maxAmount = false) := by
  unfold filterError at h
  split at h
  · exact absurd h (by simp)
  · split at h
    · exact absurd h (by simp)
    · split at h
      · exact absurd h (by simp)
      · next h1 h2 h3 =>
        refine ⟨fun hs => ?_, fun hm => ?_, fun hm => ?_⟩
        · by_contra hc
          simp [hs] at h1
          simp [h1] at hc
        · by_contra hc
          simp [hm] at h2
          simp [h2] at hc
        · by_contra hc
          simp [hm] at h3
          simp [h3] at hc

theorem rowMatches_eq_spec {q : ListQuery} (h : filterError q = none) (o : Order) :
    rowMatches q o = specRowMatches q o := by
  obtain ⟨h1, h2, h3⟩ := filterError_none_inv h
  unfold rowMatches conjuncts specRowMatches
  cases hs : truthyStr q.status <;>
    cases hmin : truthyStr q.minAmount <;>
    cases hmax : truthyStr q.maxAmount <;>
    cases hsd : truthyStr q.startDate <;>
    cases hed : truthyStr q.endDate <;>
    simp_all [badAmount]
  all_goals
    rcases hp : jsParseFloat (q.minAmount.getD "") with _ | v <;>
      rcases hq : jsParseFloat (q.maxAmount.getD "") with _ | w <;>
      simp_all [Bool.and_assoc]

/-- After a successful listing, every component of the response in terms
of the embedding's primitives. -/
theorem getOrders_ok_inv {db : DB} {q : ListQuery} {data : List Order} {pag : Pagination}
    (h : getOrders db q = .ok data pag) :
    filterError q = none
    ∧ pag.page = jsIntOr q.page 1 ∧ pag.limit = jsIntOr q.limit 10
    ∧ 1 ≤ pag.page ∧ 1 ≤ pag.limit ∧ pag.limit ≤ 100
    ∧ pag.totalOrders = (db.rows.filter (fun o => rowMatches q o)).length
    ∧ pag.totalPages = ceilDiv pag.totalOrders pag.limit.toNat
    ∧ pag.hasNextPage = decide (pag.page < (pag.totalPages : Int))
    ∧ pag.hasPreviousPage = decide (1 < pag.page)
    ∧ data = ((sortedMatched db q).drop ((pag.page - 1) * pag.limit).toNat).take
        pag.limit.toNat := by
  unfold getOrders at h
  dsimp only at h
  split at h
  · exact absurd h (by simp)
  · next hvalid =>
    push_neg at hvalid
    split at h
    · exact absurd h (by simp)
    · exact absurd h (by simp)
    · exact absurd h (by simp)
    · next hf =>
      rw [ListRes.ok.injEq] at h
      obtain ⟨hdata, hpag⟩ := h
      subst hpag
      refine ⟨hf, rfl, rfl, ?_, ?_, ?_, rfl, rfl, rfl, rfl, hdata.symm⟩
      · show (1 : Int) ≤ jsIntOr q.page 1
        omega
      · show (1 : Int) ≤ jsIntOr q.limit 10
        omega
      · show jsIntOr q.limit 10 ≤ 100
        omega

theorem lt_ceilDiv_iff {p T L : Nat} (hL : 1 ≤ L) : p < ceilDiv T L ↔ p * L < T := by
  unfold ceilDiv
  rw [Nat.lt_iff_add_one_le, Nat.le_div_iff_mul_le (by omega)]
  have h1 : (p + 1) * L = p * L + L := by ring
  rw [h1]
  generalize p * L = m
  omega

/-!
Example fixtures used by witnesses and counterexamples.
-/

/-- An empty store. -/
def emptyDB : DB := { rows := [], nextId := 1 }

/-- The listing query with every parameter absent. -/
def noQuery : ListQuery := ⟨none, none, none, none, none, none, none⟩

def exOrder1 : Order := ⟨1, "Alice", "Laptop", 1, 1500, "completed", "2026-01-15"⟩

def exOrder2 : Order := ⟨2, "Bob", "Mouse", 2, 50, "pending", "2026-01-20"⟩

def exOrder3 : Order := ⟨3, "Carol", "Keyboard", 1, 120, "processing", "2026-01-15"⟩

/-- A store with three orders, two sharing an `order_date`. -/
def exDB : DB := { rows := [exOrder1, exOrder2, exOrder3], nextId := 4 }

/-!
Claim theorems.
-/

theorem filterError_page_irrel (q : ListQuery) (p : Option String) :
    filterError { q with page := p } = filterError q := rfl

theorem rowMatches_page_irrel (q : ListQuery) (p : Option String) (o : Order) :
    rowMatches { q with page := p } o = rowMatches q o := rfl

theorem sortedMatched_page_irrel (db : DB) (q : ListQuery) (p : Option String) :
    sortedMatched db { q with page := p } = sortedMatched db q := rfl

theorem filterError_limit_irrel (q : ListQuery) (p : Option String) :
    filterError { q with limit := p } = filterError q := rfl

theorem rowMatches_limit_irrel (q : ListQuery) (p : Option String) (o : Order) :
    rowMatches { q with limit := p } o = rowMatches q o := rfl

theorem sortedMatched_limit_irrel (db : DB) (q : ListQuery) (p : Option String) :
    sortedMatched db { q with limit := p } = sortedMatched db q := rfl

/-- Two page parameters that parse-and-default to the same value yield
identical listing responses. -/
theorem getOrders_page_congr (db : DB) (q : ListQuery) (p1 p2 : Option String)
    (h : jsIntOr p1 1 = jsIntOr p2 1) :
    getOrders db { q with page := p1 } = getOrders db { q with page := p2 } := by
  unfold getOrders
  dsimp only
  rw [h]
  simp only [filterError_page_irrel, rowMatches_page_irrel, sortedMatched_page_irrel]

/-- Two limit parameters that parse-and-default to the same value yield
identical listing responses. -/
theorem getOrders_limit_congr (db : DB) (q : ListQuery) (p1 p2 : Option String)
    (h : jsIntOr p1 10 = jsIntOr p2 10) :
    getOrders db { q with limit := p1 } = getOrders db { q with limit := p2 } := by
  unfold getOrders
  dsimp only
  rw [h]
  simp only [filterError_limit_irrel, rowMatches_limit_irrel, sortedMatched_limit_irrel]

/-- C1 (counterexample): contrary to the claim, `GET /orders?page=0`
does not fail with InvalidPagination: `parseInt('0')` is falsy, so the
`|| 1` fallback silently replaces it with the default page 1 and the
request succeeds with HTTP 200. -/
theorem c1_page_zero_counterexample :
    getOrders emptyDB { noQuery with page := some "0" } =
      .ok [] ⟨1, 10, 0, 0, false, false⟩ := by decide

/-- C1 (amended): filter validation defaults page to 1 and limit to 10,
also when the supplied value fails to parse or parses to the falsy 0;
it fails with InvalidPagination (HTTP 400) exactly when the resulting
page is < 1 or the resulting limit is outside [1, 100].  In particular
`GET /orders?limit=500` returns 400 InvalidPagination, while
`GET /orders?page=0` behaves exactly like a request without a page
parameter (HTTP 200 with page 1). -/
theorem c1_pagination_validation (db : DB) (q : ListQuery) :
    (getOrders db q = .invalidPagination ↔
      (jsIntOr q.page 1 < 1 ∨ jsIntOr q.limit 10 < 1 ∨ 100 < jsIntOr q.limit 10))
    ∧ getOrders db { q with limit := some "500" } = .invalidPagination
    ∧ getOrders db { q with page := some "0" } = getOrders db { q with page := none } := by
  refine ⟨?_, ?_, ?_⟩
  · unfold getOrders
    dsimp only
    split
    · next hc => simpa using hc
    · next hc =>
      push_neg at hc
      constructor
      · intro h
        exfalso
        split at h <;> simp_all
      · intro h
        exfalso
        omega
  · unfold getOrders
    dsimp only
    split
    · rfl
    · next hc =>
      exfalso
      apply hc
      right
      right
      show (100 : Int) < jsIntOr (some "500") 10
      decide
  · unfold getOrders
    dsimp only
    rw [show jsIntOr (some "0") 1 = jsIntOr none 1 from by decide]
    simp only [filterError_page_irrel, rowMatches_page_irrel, sortedMatched_page_irrel]

theorem c1_pagination_validation_witness :
    getOrders emptyDB { noQuery with limit := some "500" } = .invalidPagination :=
  (c1_pagination_validation emptyDB noQuery).2.1

/-- C2 (counterexample): contrary to the claim, the falsy supplied value
`quantity: 0` on an update is not silently skipped: the magnitude check
fires (`0 !== undefined && 0 <= 0`) and the request is rejected with
HTTP 400. -/
theorem c2_quantity_zero_rejected_counterexample :
    updateOrder exDB 1 ⟨none, none, some 0, none, none, none⟩ =
      (.invalidMagnitude, exDB) := by decide

/-- C2 (amended): on update, a falsy supplied value among the four string
fields (customer_name, product, status, order_date) is treated as absent
and silently skipped — it contributes no update conjunct and is not
rejected — but a supplied quantity or amount that is ≤ 0 (in particular
`quantity: 0`) is rejected with HTTP 400 before any update is applied,
and the store is unchanged in both situations. -/
theorem c2_falsy_update_fields (db : DB) (id : Int) (b : UpdateBody) (qv av : ℚ) :
    (b.customer_name = some "" → b.product = some "" → b.quantity = none →
     b.amount = none → b.status = some "" → b.order_date = some "" →
     updateOrder db id b = (.noFieldsToUpdate, db))
    ∧ (b.quantity = some qv → qv ≤ 0 →
       (truthyStr b.status = true → validStatuses.contains (b.status.getD "") = true) →
       updateOrder db id b = (.invalidMagnitude, db))
    ∧ (b.amount = some av → av ≤ 0 →
       (truthyStr b.status = true → validStatuses.contains (b.status.getD "") = true) →
       updateOrder db id b = (.invalidMagnitude, db)) := by
  obtain ⟨bc, bp, bq, ba, bs, bd⟩ := b
  refine ⟨?_, ?_, ?_⟩
  · intro h1 h2 h3 h4 h5 h6
    subst h1
    subst h2
    subst h3
    subst h4
    subst h5
    subst h6
    simp [updateOrder, buildUpdates, truthyStr, truthyNum]
  · intro hq hle hst
    subst hq
    dsimp only at hst ⊢
    cases hsb : truthyStr bs with
    | false => simp [updateOrder, hsb, hle]
    | true =>
      have hm := hst hsb
      simp at hm
      simp [updateOrder, hsb, hm, hle]
  · intro ha hle hst
    subst ha
    dsimp only at hst ⊢
    cases hsb : truthyStr bs with
    | false => simp [updateOrder, hsb, hle]
    | true =>
      have hm := hst hsb
      simp at hm
      simp [updateOrder, hsb, hm, hle]

theorem c2_falsy_update_fields_witness :
    updateOrder exDB 1 ⟨some "", some "", none, none, some "", some ""⟩ =
      (.noFieldsToUpdate, exDB) := by
  have h := c2_falsy_update_fields exDB 1 ⟨some "", some "", none, none, some "", some ""⟩ 0 0
  exact h.1 rfl rfl rfl rfl rfl rfl

/-- C7 (counterexample): contrary to the claim, the MissingFields
failure does not name exactly the absent fields: a request missing only
`quantity` is answered with the full six-element `required` list, which
also names the five fields that were supplied. -/
theorem c7_names_all_fields_counterexample :
    (createOrder emptyDB
        ⟨some "Alice", some "Mouse", none, some 50, some "pending", some "2026-01-01"⟩).fst
      = .missingFields requiredFields
    ∧ specAbsentFields
        ⟨some "Alice", some "Mouse", none, some 50, some "pending", some "2026-01-01"⟩
      = ["quantity"]
    ∧ requiredFields ≠ ["quantity"] := by decide

theorem specAbsentFields_eq_nil_iff (b : CreateBody) :
    specAbsentFields b = [] ↔
      (truthyStr b.customer_name && truthyStr b.product && truthyNum b.quantity &&
       truthyNum b.amount && truthyStr b.status && truthyStr b.order_date) = true := by
  cases h1 : truthyStr b.customer_name <;> cases h2 : truthyStr b.product <;>
    cases h3 : truthyNum b.quantity <;> cases h4 : truthyNum b.amount <;>
    cases h5 : truthyStr b.status <;> cases h6 : truthyStr b.order_date <;>
    simp [specAbsentFields, h1, h2, h3, h4, h5, h6]

theorem createOrder_fst_ne_missing (db : DB) (b : CreateBody)
    (h : (truthyStr b.customer_name && truthyStr b.product && truthyNum b.quantity &&
          truthyNum b.amount && truthyStr b.status && truthyStr b.order_date) = true)
    (l : List String) :
    (createOrder db b).fst ≠ CreateRes.missingFields l := by
  unfold createOrder
  rw [h]
  rw [if_neg (by simp)]
  split
  · simp
  · split
    · simp
    · dsimp only
      split <;> simp

/-- C7 (amended): when (and only when) at least one of the six required
fields is absent or falsy, create validation fails with MissingFields and
the store is untouched; the failure names the fixed list of all six
required fields — a superset that contains every absent field but also
the supplied ones. -/
theorem c7_missing_fields_naming (db : DB) (b : CreateBody) :
    (specAbsentFields b ≠ [] ↔ (createOrder db b).fst = .missingFields requiredFields)
    ∧ (specAbsentFields b ≠ [] → createOrder db b = (.missingFields requiredFields, db))
    ∧ (∀ f ∈ specAbsentFields b, f ∈ requiredFields) := by
  have hmain : specAbsentFields b ≠ [] →
      createOrder db b = (.missingFields requiredFields, db) := by
    intro hne
    have hb : ¬ ((truthyStr b.customer_name && truthyStr b.product && truthyNum b.quantity &&
        truthyNum b.amount && truthyStr b.status && truthyStr b.order_date) = true) :=
      fun hc => hne ((specAbsentFields_eq_nil_iff b).mpr hc)
    rw [Bool.not_eq_true] at hb
    unfold createOrder
    rw [hb]
    rfl
  refine ⟨⟨fun hne => by rw [hmain hne], fun hfst => ?_⟩, hmain, ?_⟩
  · intro hnil
    have hall := (specAbsentFields_eq_nil_iff b).mp hnil
    exact createOrder_fst_ne_missing db b hall requiredFields hfst
  · intro f hf
    unfold specAbsentFields at hf
    simp only [List.mem_append] at hf
    unfold requiredFields
    rcases hf with ((((hf | hf) | hf) | hf) | hf) | hf <;>
      (split at hf <;> simp_all)

theorem c7_missing_fields_naming_witness :
    createOrder emptyDB ⟨none, none, none, none, none, none⟩ =
      (.missingFields requiredFields, emptyDB) := by
  have h := c7_missing_fields_naming emptyDB ⟨none, none, none, none, none, none⟩
  exact h.2.1 (by decide)

/-- C9: a page or limit parameter that does not parse as an integer
(`parseInt` yields `NaN`, e.g. `page=abc`) is silently replaced by its
default (page 1, limit 10): the request behaves exactly like one without
that parameter and succeeds with HTTP 200 (page 1, limit 10) rather than
failing with InvalidPagination. -/
theorem c9_unparseable_pagination_defaults (db : DB) (s : String)
    (hs : jsParseInt s = none) :
    getOrders db ⟨some s, none, none, none, none, none, none⟩ =
        getOrders db noQuery
    ∧ getOrders db ⟨none, some s, none, none, none, none, none⟩ =
        getOrders db noQuery
    ∧ getOrders db noQuery =
        .ok ((sortedMatched db noQuery).take 10)
          ⟨1, 10, db.rows.length, ceilDiv db.rows.length 10,
            decide ((1 : Int) < (ceilDiv db.rows.length 10 : Int)), false⟩ := by
  refine ⟨?_, ?_, ?_⟩
  · exact getOrders_page_congr db noQuery (some s) none (by simp [jsIntOr, hs])
  · exact getOrders_limit_congr db noQuery (some s) none (by simp [jsIntOr, hs])
  · unfold getOrders
    dsimp only
    rw [if_neg (by decide)]
    rw [show filterError noQuery = none from by decide]
    dsimp only
    rw [show (db.rows.filter (fun o => rowMatches noQuery o)) = db.rows from
      List.filter_eq_self.mpr (fun o _ => rfl)]
    rfl

theorem c9_unparseable_pagination_defaults_witness :
    getOrders exDB ⟨some "abc", none, none, none, none, none, none⟩ =
      getOrders exDB noQuery :=
  (c9_unparseable_pagination_defaults exDB "abc" (by decide)).1

/-- C6: an update or delete with a numeric id fails with NotFound
(HTTP 404) exactly when the affected-row count is zero — for update,
provided the request passes validation and supplies at least one truthy
field, so that the UPDATE statement actually runs.  The store is
unchanged by every such failing call, so deleting the same non-existent
id repeatedly returns 404 every time. -/
theorem c6_notfound_iff_zero_rows (db : DB) (id : Int) (b : UpdateBody) :
    (deleteOrder db id = (.notFound, db) ↔ matchCount db id = 0)
    ∧ (matchCount db id = 0 →
        deleteOrder (deleteOrder db id).snd id = (.notFound, db))
    ∧ ((updateOrder db id b).fst = .notFound ↔
        ((truthyStr b.status && !(validStatuses.contains (b.status.getD ""))) = false
         ∧ ((b.quantity.isSome && decide (b.quantity.getD 0 ≤ 0))
            || (b.amount.isSome && decide (b.amount.getD 0 ≤ 0))) = false
         ∧ buildUpdates b ≠ []
         ∧ matchCount db id = 0))
    ∧ ((updateOrder db id b).fst = .notFound → (updateOrder db id b).snd = db) := by
  have hdel : deleteOrder db id = (.notFound, db) ↔ matchCount db id = 0 := by
    unfold deleteOrder
    split
    · next hc => simp [hc]
    · next hc => simp [hc]
  refine ⟨hdel, fun h0 => ?_, ?_, ?_⟩
  · have : deleteOrder db id = (.notFound, db) := hdel.mpr h0
    rw [this]
    exact hdel.mpr h0
  · unfold updateOrder
    dsimp only
    split
    · next hg1 =>
      constructor
      · intro h
        exact absurd h (by simp)
      · rintro ⟨h1, -, -, -⟩
        rw [h1] at hg1
        exact absurd hg1 (by simp)
    · next hg1 =>
      split
      · next hg2 =>
        constructor
        · intro h
          exact absurd h (by simp)
        · rintro ⟨-, h2, -, -⟩
          rw [h2] at hg2
          exact absurd hg2 (by simp)
      · next hg2 =>
        split
        · next hlen =>
          constructor
          · intro h
            exact absurd h (by simp)
          · rintro ⟨-, -, h3, -⟩
            exact absurd (List.length_eq_zero.mp hlen) h3
        · next hlen =>
          split
          · next hmc =>
            refine ⟨fun _ => ⟨?_, ?_, ?_, hmc⟩, fun _ => rfl⟩
            · cases hb : (truthyStr b.status && !(validStatuses.contains (b.status.getD "")))
              · rfl
              · exact absurd hb hg1
            · cases hb : ((b.quantity.isSome && decide (b.quantity.getD 0 ≤ 0))
                  || (b.amount.isSome && decide (b.amount.getD 0 ≤ 0)))
              · rfl
              · exact absurd hb hg2
            · intro hnil
              apply hlen
              rw [hnil]
              rfl
          · next hmc =>
            constructor
            · intro h
              exact absurd h (by simp)
            · rintro ⟨-, -, -, h4⟩
              exact absurd h4 hmc
  · unfold updateOrder
    dsimp only
    split
    · intro _
      rfl
    · split
      · intro _
        rfl
      · split
        · intro _
          rfl
        · split
          · intro _
            rfl
          · intro h
            exact absurd h (by simp)

theorem c6_notfound_iff_zero_rows_witness :
    deleteOrder exDB 99 = (.notFound, exDB) := by
  have h := c6_notfound_iff_zero_rows exDB 99 ⟨none, none, none, none, none, none⟩
  exact h.1.mpr (by decide)

theorem truthyStr_getD_ne {s : Option String} (h : truthyStr s = true) : s.getD "" ≠ "" := by
  cases s with
  | none => simp [truthyStr] at h
  | some v => simpa [truthyStr] using h

/-- The rational 5/2: a positive, non-integral quantity value. -/
def fiveHalves : ℚ := ⟨5, 2, by decide, by decide⟩

/-- C8 (counterexample): contrary to the claim, create persists an order
whose `order_date` is not of the form YYYY-MM-DD and whose quantity is
not an integer: neither a date-format check nor an integrality check
exists anywhere on the create path. -/
theorem c8_constraints_counterexample :
    createOrder emptyDB
        ⟨some "Alice", some "Mouse", some fiveHalves, some 50, some "pending", some "banana"⟩ =
      (.created ⟨1, "Alice", "Mouse", fiveHalves, 50, "pending", "banana"⟩,
       ⟨[⟨1, "Alice", "Mouse", fiveHalves, 50, "pending", "banana"⟩], 2⟩)
    ∧ specDateFormat "banana" = false
    ∧ fiveHalves.den ≠ 1 := by decide

/-- C8 (amended): every order persisted through create has a non-empty
customer_name and product, strictly positive quantity and amount, a
status in the enumerated set — enforced both by create validation and by
the storage CHECK constraint — and a non-empty order_date; but the
YYYY-MM-DD format of order_date, integrality of quantity, and the
two-decimal precision of amount are not enforced beyond that. -/
theorem c8_created_order_invariants (db : DB) (b : CreateBody) (o : Order) (db2 : DB)
    (h : createOrder db b = (.created o, db2)) :
    o.customer_name ≠ "" ∧ o.product ≠ "" ∧ 0 < o.quantity ∧ 0 < o.amount
    ∧ o.status ∈ validStatuses ∧ statusCheck o = true ∧ o.order_date ≠ ""
    ∧ db2.rows = db.rows ++ [o] := by
  unfold createOrder at h
  dsimp only at h
  split at h
  · exact absurd h (by simp)
  · next hg1 =>
    split at h
    · exact absurd h (by simp)
    · next hg2 =>
      split at h
      · exact absurd h (by simp)
      · next hg3 =>
        split at h
        · exact absurd h (by simp)
        · next db3 hins =>
          rw [Prod.mk.injEq, CreateRes.created.injEq] at h
          obtain ⟨ho, hdb⟩ := h
          subst ho
          subst hdb
          have hA : (truthyStr b.customer_name && truthyStr b.product &&
              truthyNum b.quantity && truthyNum b.amount && truthyStr b.status &&
              truthyStr b.order_date) = true := by
            revert hg1
            cases (truthyStr b.customer_name && truthyStr b.product &&
              truthyNum b.quantity && truthyNum b.amount && truthyStr b.status &&
              truthyStr b.order_date) <;> simp
          simp only [Bool.and_eq_true] at hA
          obtain ⟨⟨⟨⟨⟨hc, hp⟩, hq⟩, ha⟩, hst⟩, hod⟩ := hA
          push_neg at hg3
          obtain ⟨hq0, ha0⟩ := hg3
          have hmem : b.status.getD "" ∈ validStatuses := by
            revert hg2
            cases hcont : validStatuses.contains (b.status.getD "") <;> simp_all
          unfold dbInsert at hins
          split at hins
          · next hck =>
            rw [Option.some.injEq] at hins
            subst hins
            exact ⟨truthyStr_getD_ne hc, truthyStr_getD_ne hp, hq0,
              ha0, hmem, hck, truthyStr_getD_ne hod, rfl⟩
          · exact absurd hins (by simp)

theorem c8_created_order_invariants_witness :
    (⟨1, "Dan", "Desk", 1, 50, "pending", "2026-02-02"⟩ : Order).status ∈ validStatuses := by
  have h := c8_created_order_invariants emptyDB
      ⟨some "Dan", some "Desk", some 1, some 50, some "pending", some "2026-02-02"⟩
      ⟨1, "Dan", "Desk", 1, 50, "pending", "2026-02-02"⟩
      ⟨[⟨1, "Dan", "Desk", 1, 50, "pending", "2026-02-02"⟩], 2⟩ (by decide)
  exact h.2.2.2.2.1

/-- C3: on every successful listing, each present filter contributed
exactly one AND-combined conjunct, every returned row satisfies the
conjunction of the active filters, and `pagination.totalOrders` equals
the number of stored orders satisfying them, ignoring limit and
offset. -/
theorem c3_filter_semantics (db : DB) (q : ListQuery) (data : List Order) (pag : Pagination)
    (h : getOrders db q = .ok data pag) :
    (conjuncts q).length = presentFilterCount q
    ∧ (∀ o ∈ data, specRowMatches q o = true)
    ∧ pag.totalOrders = (db.rows.filter (fun o => specRowMatches q o)).length := by
  obtain ⟨hf, -, -, -, -, -, hTot, -, -, -, hdata⟩ := getOrders_ok_inv h
  refine ⟨conjuncts_length q, ?_, ?_⟩
  · intro o ho
    rw [hdata] at ho
    have h1 : o ∈ sortedMatched db q :=
      List.drop_subset _ _ (List.take_subset _ _ ho)
    have h2 : o ∈ db.rows.filter (fun x => rowMatches q x) :=
      ((List.perm_insertionSort listOrd _).mem_iff).mp h1
    have h3 : rowMatches q o = true := (List.mem_filter.mp h2).2
    rw [rowMatches_eq_spec hf] at h3
    exact h3
  · rw [hTot]
    exact congrArg List.length (List.filter_congr (fun o _ => rowMatches_eq_spec hf o))

theorem c3_filter_semantics_witness :
    specRowMatches ⟨none, none, some "pending", none, none, none, none⟩ exOrder2 = true := by
  have h := c3_filter_semantics exDB ⟨none, none, some "pending", none, none, none, none⟩
      [exOrder2] ⟨1, 10, 1, 1, false, false⟩ (by decide)
  exact h.2.1 exOrder2 (by simp)

/-- C4: on every successful listing (page ≥ 1 and 1 ≤ limit ≤ 100 hold
whenever validation passed), the data page is the slice of the ordered
matches starting at offset (page-1)*limit, its length is at most limit,
totalPages is the ceiling of totalOrders/limit (0 when totalOrders is
0), hasPreviousPage is page > 1, and hasNextPage is page < totalPages,
which is equivalent to page*limit < totalOrders. -/
theorem c4_pagination_metadata (db : DB) (q : ListQuery) (data : List Order) (pag : Pagination)
    (h : getOrders db q = .ok data pag) :
    1 ≤ pag.page ∧ 1 ≤ pag.limit ∧ pag.limit ≤ 100
    ∧ data = ((sortedMatched db q).drop ((pag.page - 1) * pag.limit).toNat).take
        pag.limit.toNat
    ∧ (∀ i : Nat, i < data.length →
        data[i]? = (sortedMatched db q)[((pag.page - 1) * pag.limit).toNat + i]?)
    ∧ data.length ≤ pag.limit.toNat
    ∧ pag.totalPages = ceilDiv pag.totalOrders pag.limit.toNat
    ∧ (pag.totalOrders = 0 → pag.totalPages = 0)
    ∧ pag.hasPreviousPage = decide (1 < pag.page)
    ∧ (pag.hasNextPage = true ↔ pag.page < (pag.totalPages : Int))
    ∧ (pag.hasNextPage = true ↔ pag.page * pag.limit < (pag.totalOrders : Int)) := by
  obtain ⟨hf, -, -, hp1, hl1, hl100, hTot, hTP, hNext, hPrev, hdata⟩ := getOrders_ok_inv h
  have hL : 1 ≤ pag.limit.toNat := by omega
  have hiff : pag.page < (pag.totalPages : Int) ↔
      pag.page * pag.limit < (pag.totalOrders : Int) := by
    rw [hTP]
    rw [show pag.page = (pag.page.toNat : Int) from (Int.toNat_of_nonneg (by omega)).symm,
      show pag.limit = (pag.limit.toNat : Int) from (Int.toNat_of_nonneg (by omega)).symm]
    exact_mod_cast lt_ceilDiv_iff hL
  refine ⟨hp1, hl1, hl100, hdata, ?_, ?_, hTP, ?_, hPrev, ?_, ?_⟩
  · intro i hi
    rw [hdata]
    rw [hdata] at hi
    have hlim : i < pag.limit.toNat :=
      lt_of_lt_of_le hi (List.length_take_le _ _)
    rw [List.getElem?_take, if_pos hlim, List.getElem?_drop]
  · rw [hdata]
    exact List.length_take_le _ _
  · intro h0
    rw [hTP, h0]
    unfold ceilDiv
    exact Nat.div_eq_of_lt (by omega)
  · rw [hNext]
    simp only [decide_eq_true_eq]
  · rw [hNext]
    simp only [decide_eq_true_eq]
    exact hiff

theorem c4_pagination_metadata_witness :
    ([exOrder1] : List Order).length ≤ (2 : Int).toNat := by
  have h := c4_pagination_metadata exDB ⟨some "2", some "2", none, none, none, none, none⟩
      [exOrder1] ⟨2, 2, 3, 2, false, true⟩ (by decide)
  exact h.2.2.2.2.2.1

theorem ceilDiv_mul_le {T L : Nat} (hL : 1 ≤ L) : T ≤ ceilDiv T L * L := by
  by_contra hc
  push_neg at hc
  have h2 := (lt_ceilDiv_iff hL).mpr hc
  omega

/-- C10: a valid listing request whose page exceeds totalPages succeeds
with HTTP 200 and an empty data array rather than an error; totalOrders
and totalPages still report the full match count, hasNextPage is false,
and hasPreviousPage is true whenever page > 1 — including page > 1 on an
empty table. -/
theorem c10_page_beyond_last (db : DB) (q : ListQuery) (data : List Order) (pag : Pagination)
    (h : getOrders db q = .ok data pag)
    (hp : (pag.totalPages : Int) < pag.page) :
    data = []
    ∧ pag.hasNextPage = false
    ∧ (1 < pag.page → pag.hasPreviousPage = true)
    ∧ pag.totalOrders = (db.rows.filter (fun o => specRowMatches q o)).length
    ∧ pag.totalPages = ceilDiv pag.totalOrders pag.limit.toNat := by
  obtain ⟨hf, -, -, hp1, hl1, hl100, hTot, hTP, hNext, hPrev, hdata⟩ := getOrders_ok_inv h
  have hL : 1 ≤ pag.limit.toNat := by omega
  have hoff : (pag.totalOrders : Int) ≤ (pag.page - 1) * pag.limit := by
    have h1 : (pag.totalPages : Int) ≤ pag.page - 1 := by omega
    have h2 : (pag.totalOrders : Int) ≤ (pag.totalPages : Int) * pag.limit := by
      rw [hTP]
      calc (pag.totalOrders : Int)
          ≤ ((ceilDiv pag.totalOrders pag.limit.toNat * pag.limit.toNat : Nat) : Int) := by
            exact_mod_cast ceilDiv_mul_le hL
        _ = (ceilDiv pag.totalOrders pag.limit.toNat : Int) * (pag.limit.toNat : Int) := by
            push_cast
            ring
        _ = (ceilDiv pag.totalOrders pag.limit.toNat : Int) * pag.limit := by
            rw [Int.toNat_of_nonneg (show (0 : Int) ≤ pag.limit by omega)]
    calc (pag.totalOrders : Int) ≤ (pag.totalPages : Int) * pag.limit := h2
      _ ≤ (pag.page - 1) * pag.limit :=
          mul_le_mul_of_nonneg_right h1 (by omega)
  have hoffnat : pag.totalOrders ≤ ((pag.page - 1) * pag.limit).toNat := by
    generalize hgen : (pag.page - 1) * pag.limit = off at hoff
    omega
  have hlen : (sortedMatched db q).length = pag.totalOrders := by
    rw [hTot]
    exact (List.perm_insertionSort listOrd _).length_eq
  have hnil : (sortedMatched db q).drop ((pag.page - 1) * pag.limit).toNat = [] :=
    List.drop_eq_nil_of_le (by rw [hlen]; exact hoffnat)
  refine ⟨?_, ?_, ?_, ?_, hTP⟩
  · rw [hdata, hnil]
    exact List.take_nil
  · rw [hNext]
    simp only [decide_eq_false_iff_not]
    omega
  · intro h1
    rw [hPrev]
    simp [h1]
  · rw [hTot]
    exact congrArg List.length (List.filter_congr (fun o _ => rowMatches_eq_spec hf o))

theorem c10_page_beyond_last_witness :
    ([] : List Order) = []
    ∧ (false = false)
    ∧ ((1 : Int) < 2 → true = true)
    ∧ (0 : Nat) = (emptyDB.rows.filter (fun o => specRowMatches noQuery o)).length
    ∧ (0 : Nat) = ceilDiv 0 (10 : Int).toNat := by
  have h := c10_page_beyond_last emptyDB { noQuery with page := some "2" }
      [] ⟨2, 10, 0, 0, false, true⟩ (by decide) (by decide)
  exact h

/-- C5: listing results are sorted by order_date descending with id
descending as tie-break; the relation is total, so the order is
deterministic, and when the store's ids are unique (as the PRIMARY KEY
guarantees), of two returned orders with equal order_date the one with
the strictly higher id appears first. -/
theorem c5_listing_order (db : DB) (q : ListQuery) (data : List Order) (pag : Pagination)
    (h : getOrders db q = .ok data pag)
    (hids : (db.rows.map Order.id).Nodup) :
    List.Sorted listOrd data
    ∧ (∀ a b : Order, listOrd a b ∨ listOrd b a)
    ∧ (∀ i j : Nat, ∀ hij : i < j, ∀ hj : j < data.length,
        (data.get ⟨i, lt_trans hij hj⟩).order_date = (data.get ⟨j, hj⟩).order_date →
        (data.get ⟨j, hj⟩).id < (data.get ⟨i, lt_trans hij hj⟩).id) := by
  obtain ⟨-, -, -, -, -, -, -, -, -, -, hdata⟩ := getOrders_ok_inv h
  have hsorted : List.Sorted listOrd (sortedMatched db q) :=
    List.sorted_insertionSort listOrd _
  have hsub : List.Sublist data (sortedMatched db q) := by
    rw [hdata]
    exact (List.take_sublist _ _).trans (List.drop_sublist _ _)
  have hdatasorted : List.Sorted listOrd data := hsorted.sublist hsub
  have hnd1 : ((db.rows.filter (fun o => rowMatches q o)).map Order.id).Nodup :=
    hids.sublist ((List.filter_sublist _).map Order.id)
  have hnd2 : ((sortedMatched db q).map Order.id).Nodup :=
    (((List.perm_insertionSort listOrd _).map Order.id).nodup_iff).mpr hnd1
  have hnd3 : (data.map Order.id).Nodup := hnd2.sublist (hsub.map Order.id)
  refine ⟨hdatasorted, fun a b => IsTotal.total a b, ?_⟩
  intro i j hij hj hdate
  have hrel : listOrd (data.get ⟨i, lt_trans hij hj⟩) (data.get ⟨j, hj⟩) :=
    List.Sorted.rel_get_of_lt hdatasorted (Fin.mk_lt_mk.mpr hij)
  have hle : (data.get ⟨j, hj⟩).id ≤ (data.get ⟨i, lt_trans hij hj⟩).id := by
    rcases hrel with hlt | ⟨-, hle⟩
    · rw [hdate] at hlt
      rw [lexCmp_refl] at hlt
      exact absurd hlt (by simp)
    · exact hle
  have hne : (data.get ⟨i, lt_trans hij hj⟩).id ≠ (data.get ⟨j, hj⟩).id := by
    intro hEq
    have hmi : i < (data.map Order.id).length := by
      simpa using lt_trans hij hj
    have hmj : j < (data.map Order.id).length := by
      simpa using hj
    have hgm : (data.map Order.id).get ⟨i, hmi⟩ = (data.map Order.id).get ⟨j, hmj⟩ := by
      simpa using hEq
    have hfin : (⟨i, hmi⟩ : Fin (data.map Order.id).length) = ⟨j, hmj⟩ :=
      hnd3.get_inj_iff.mp hgm
    have : i = j := congrArg Fin.val hfin
    omega
  omega

theorem c5_listing_order_witness :
    List.Sorted listOrd ([exOrder2, exOrder3, exOrder1] : List Order) := by
  have h := c5_listing_order exDB noQuery [exOrder2, exOrder3, exOrder1]
      ⟨1, 10, 3, 1, false, false⟩ (by decide) (by decide)
  exact h.1

end OrdersApi
